import Mathlib

/-
  Verification development for auprint (src/auprint.py), a thin orchestration
  layer over smbclient, lpadmin, lpstat and a configparser-backed credential
  store.  External commands are modelled by passing their observable results
  (stdout text or a non-zero-exit exception) as explicit arguments, and by
  returning the argument vector a call would issue.  Machine text is modelled
  as Lean strings restricted to the ASCII fragment the program manipulates.
-/

/-! ## Python string primitives -/

/-- ASCII whitespace recognized by Python str.split and str.strip
(the model is restricted to ASCII text). -/
def isPySpace (c : Char) : Bool :=
  c = ' ' || c = '\t' || c = '\n' || c = '\r' || c = '\x0b' || c = '\x0c'

/-- Python str.split(sep) for a one-character separator, on char lists.
Always returns a non-empty list; splitting the empty string gives one
empty field, as in Python. -/
def splitCharList (sep : Char) : List Char → List (List Char)
  | [] => [[]]
  | c :: cs =>
    if c = sep then [] :: splitCharList sep cs
    else
      match splitCharList sep cs with
      | h :: t => (c :: h) :: t
      | [] => [[c]]

/-- Python s.split(sep) for a one-character separator. -/
def pySplitChar (sep : Char) (s : String) : List String :=
  (splitCharList sep s.data).map (fun l => String.mk l)

/-- Python str.strip() on char lists. -/
def stripList (s : List Char) : List Char :=
  ((s.dropWhile isPySpace).reverse.dropWhile isPySpace).reverse

/-- Python s.strip(). -/
def pyStrip (s : String) : String := String.mk (stripList s.data)

/-- Helper for Python str.split() with no arguments: accumulates the current
word (reversed) while scanning. -/
def wordsAux : List Char → List Char → List (List Char)
  | [], cur => if cur.isEmpty then [] else [cur.reverse]
  | c :: rest, cur =>
    if isPySpace c then
      if cur.isEmpty then wordsAux rest [] else cur.reverse :: wordsAux rest []
    else wordsAux rest (c :: cur)

/-- Python s.split() with no arguments: maximal whitespace-separated words. -/
def pySplitWs (s : String) : List String :=
  (wordsAux s.data []).map (fun l => String.mk l)

/-- The longest non-whitespace word at the head of the list. -/
def takeWord (s : List Char) : List Char := s.takeWhile (fun c => !isPySpace c)

/-- Drop the longest non-whitespace word at the head of the list. -/
def dropWord (s : List Char) : List Char := s.dropWhile (fun c => !isPySpace c)

/-- Python str.split(maxsplit = m), fuel-indexed.  Each recursive call strictly
shortens the list, so fuel at least the length of the list makes the
fuel-exhaustion branch unreachable. -/
def pySplitWsMaxAux : Nat → Nat → List Char → List (List Char)
  | 0, _, _ => []
  | fuel + 1, maxs, s =>
    match s.dropWhile isPySpace with
    | [] => []
    | t =>
      match maxs with
      | 0 => [t]
      | m + 1 => takeWord t :: pySplitWsMaxAux fuel m (dropWord t)

/-- Python s.split(maxsplit = m). -/
def pySplitWsMax (maxs : Nat) (s : String) : List String :=
  (pySplitWsMaxAux (s.data.length + 1) maxs s.data).map (fun l => String.mk l)

/-- Python s.startswith(pre). -/
def pyStartsWith (s pre : String) : Bool := pre.data.isPrefixOf s.data

/-- Python str.lower() restricted to ASCII. -/
def lowerStr (s : String) : String := String.mk (s.data.map Char.toLower)

/-! ## Python dict, modelled as an association list with unique keys.
Assignment to an existing key updates it in place (Python dicts preserve
insertion order on overwrite); assignment to a fresh key appends. -/

/-- Python d[k] = v. -/
def insertDict : List (String × String) → String → String → List (String × String)
  | [], k, v => [(k, v)]
  | (k0, v0) :: rest, k, v =>
    if k0 = k then (k, v) :: rest else (k0, v0) :: insertDict rest k v

/-- Python k in d. -/
def dictMem (k : String) (d : List (String × String)) : Bool := (d.lookup k).isSome

/-- Python d.get(k, dflt). -/
def dictGetD (d : List (String × String)) (k dflt : String) : String :=
  match d.lookup k with
  | some v => v
  | none => dflt

/-- Python del d[k] (on a dict, the key occurs at most once; on the
association list we remove every occurrence). -/
def eraseKey (d : List (String × String)) (k : String) : List (String × String) :=
  d.filter (fun p => p.1 != k)

/-! ## Exceptions -/

/-- The Python exceptions observable in auprint.  AUAuthenticationError and
PrinterNotFoundError are defined by the program; the others are built-in or
raised by the standard library. -/
inductive PyExc where
  | auAuthenticationError
  | printerNotFoundError
  | attributeError
  | calledProcessError
  | indexError
  | valueError
  | interpolationSyntaxError
  | interpolationMissingOptionError
  | interpolationDepthError
deriving DecidableEq, Repr

/-- subprocess.CalledProcessError carries the non-zero return code of the
external command. -/
structure CalledProcessError where
  returncode : Int
deriving DecidableEq, Repr

/-! ## AUPrint class constants (src/auprint.py lines 47-64) -/

def HOST : String := "print.uni.au.dk"

def PPD : String := "/usr/share/ppd/cupsfilters/Generic-PDF_Printer-PDF.ppd"

def DOMAIN : String := "uni"

/-- The fixed building table (codes to names). -/
def BUILDING_NAMES : List (String × String) :=
  [("1530", "matematik"),
   ("5335", "nygaard"),
   ("5340", "babbage"),
   ("5341", "turing"),
   ("5342", "ada"),
   ("5343", "bush"),
   ("5344", "benjamin"),
   ("5345", "dreyer"),
   ("5346", "hopper"),
   ("5347", "wiener")]

/-- BUILDING_NUMBERS is the dict comprehension swapping keys and values. -/
def BUILDING_NUMBERS : List (String × String) :=
  BUILDING_NAMES.foldl (fun d p => insertDict d p.2 p.1) []

/-- AUPrint.pretty_name (lines 79-87): split on hyphens; a single-part name is
returned unchanged; otherwise the first part is mapped through BUILDING_NAMES
(falling back to itself) and joined with the second part. -/
def pretty_name (name : String) : String :=
  match pySplitChar '-' name with
  | [_] => name
  | p0 :: p1 :: _ => dictGetD BUILDING_NAMES p0 p0 ++ "-" ++ p1
  | [] => name

/-! ## Remote printer directory parsing (lines 89-107) -/

/-- One iteration of the parsing loop of get_remote_printer_list: skip lines
not starting with a tab, split the stripped line into at most three
whitespace-delimited fields, skip lines that do not have exactly three, skip
lines whose type field differs from the literal Printer, otherwise record
name to description. -/
def processLine (printers : List (String × String)) (l : String) :
    List (String × String) :=
  if pyStartsWith l "\t" = false then printers
  else
    match pySplitWsMax 2 (pyStrip l) with
    | [name, typ, description] =>
      if typ ≠ "Printer" then printers
      else insertDict printers name description
    | _ => printers

/-- AUPrint.get_remote_printer_list, parsing part: fold the loop body over the
lines of the smbclient output. -/
def get_remote_printer_list (out : String) : List (String × String) :=
  (pySplitChar '\n' out).foldl processLine []

/-- Per the specification wording: a line is a candidate record only if it
begins with a tab; split into at most three whitespace-delimited fields
(name, type, description with embedded spaces); keep only records whose type
field equals the literal Printer; the record maps the first field to the
third.  Unparseable or short lines yield no record. -/
def remoteRecordSpec (l : String) : Option (String × String) :=
  if pyStartsWith l "\t" then
    match pySplitWsMax 2 (pyStrip l) with
    | [name, typ, description] =>
      if typ = "Printer" then some (name, description) else none
    | _ => none
  else none

/-- The mapping the specification describes: records of candidate lines,
accumulated into the name-to-description dictionary. -/
def remoteListSpec (out : String) : List (String × String) :=
  (pySplitChar '\n' out).foldl
    (fun d l =>
      match remoteRecordSpec l with
      | some r => insertDict d r.1 r.2
      | none => d)
    []

/-! ## urllib.parse.quote with safe set empty (used at lines 91 and 110) -/

/-- UTF-8 encoding of one character, as a list of byte values. -/
def utf8BytesChar (c : Char) : List Nat :=
  let n := c.toNat
  if n < 0x80 then [n]
  else if n < 0x800 then
    [0xC0 + n / 0x40, 0x80 + n % 0x40]
  else if n < 0x10000 then
    [0xE0 + n / 0x1000, 0x80 + n / 0x40 % 0x40, 0x80 + n % 0x40]
  else
    [0xF0 + n / 0x40000, 0x80 + n / 0x1000 % 0x40, 0x80 + n / 0x40 % 0x40,
     0x80 + n % 0x40]

/-- UTF-8 encoding of a string (Python quote encodes the UTF-8 bytes). -/
def utf8Bytes (s : String) : List Nat :=
  s.data.foldr (fun c acc => utf8BytesChar c ++ acc) []

/-- The always-safe byte set of urllib.parse.quote: ASCII letters, digits and
underscore, dot, hyphen, tilde.  With safe set empty nothing else is safe. -/
def alwaysSafeByte (b : Nat) : Bool :=
  (65 ≤ b && b ≤ 90) || (97 ≤ b && b ≤ 122) || (48 ≤ b && b ≤ 57) ||
    b = 95 || b = 46 || b = 45 || b = 126

/-- Uppercase hexadecimal digit, as used by the percent escape. -/
def hexDigit (n : Nat) : Char :=
  if n < 10 then Char.ofNat (48 + n) else Char.ofNat (55 + n)

/-- One byte of quote output: safe bytes pass through, every other byte
becomes a percent escape with two uppercase hexadecimal digits. -/
def quoteByte (b : Nat) : List Char :=
  if alwaysSafeByte b then [Char.ofNat b]
  else ['%', hexDigit (b / 16), hexDigit (b % 16)]

/-- urllib.parse.quote(s, safe = empty string). -/
def pyQuote (s : String) : String :=
  String.mk ((utf8Bytes s).foldr (fun b acc => quoteByte b ++ acc) [])

/-- The unreserved characters as the specification describes them:
ALPHA, DIGIT, hyphen, dot, underscore, tilde (as byte values). -/
def unreservedSpec (b : Nat) : Bool :=
  let c := Char.ofNat b
  c.isAlpha || c.isDigit || c = '-' || c = '.' || c = '_' || c = '~'

/-! ## AUPrint session state and lifecycle operations -/

/-- The fields __init__ assigns on the session object. -/
structure AUPrintState where
  auid : String
  password : String
  printers : List (String × String)
deriving DecidableEq, Repr

/-- AUPrint.printer_url (lines 109-110).  The server address IP is resolved
once from HOST when the module loads; it is a parameter of the model. -/
def printer_url (auid password ip name : String) : String :=
  "smb://" ++ DOMAIN ++ "\\" ++ auid ++ ":" ++ pyQuote password ++ "@" ++ ip
    ++ "/" ++ name

/-- AUPrint.get_remote_printer_list (lines 89-107) as invoked: the smbclient
call either yields output text or raises CalledProcessError on non-zero
exit; the output is then parsed. -/
def get_remote_printer_list_run (r : Except CalledProcessError String) :
    Except PyExc (List (String × String)) :=
  match r with
  | .error _ => .error .calledProcessError
  | .ok out => .ok (get_remote_printer_list out)

/-- AUPrint.__init__ (lines 70-77): store the credentials, fetch the remote
printer list, and convert CalledProcessError into AUAuthenticationError. -/
def AUPrint_init (auid password : String)
    (r : Except CalledProcessError String) : Except PyExc AUPrintState :=
  match get_remote_printer_list_run r with
  | .error .calledProcessError => .error .auAuthenticationError
  | .error e => .error e
  | .ok printers => .ok ⟨auid, password, printers⟩

/-- AUPrint.install_printer (lines 132-137): guard on membership in the
last-fetched remote dictionary; on success the returned value is the argument
vector of the external lpadmin invocation. -/
def install_printer (st : AUPrintState) (ip name install_name : String) :
    Except PyExc (List String) :=
  if dictMem name st.printers then
    .ok ["lpadmin", "-p", install_name, "-E", "-P", PPD, "-v",
      printer_url st.auid st.password ip name]
  else .error .printerNotFoundError

/-- The attribute names the class body and the methods of AUPrint define
(src/auprint.py lines 46-149).  There is no attribute named
local_printer_names. -/
def AUPrint_attrs : List String :=
  ["HOST", "IP", "PPD", "DOMAIN", "BUILDING_NAMES", "BUILDING_NUMBERS",
   "auid", "password", "printers", "pretty_name", "get_remote_printer_list",
   "printer_url", "update_authentication", "get_local_printers",
   "install_printer", "delete_printer", "print"]

/-- AUPrint.delete_printer (lines 139-143).  The guard evaluates
self.local_printer_names(), but AUPrint defines no attribute of that name, so
the attribute lookup raises AttributeError before the membership test or the
lpadmin call can run.  The local_names parameter stands for the install names
the guard was evidently meant to consult. -/
def delete_printer (local_names : List String) (name : String) :
    Except PyExc (List String) :=
  if AUPrint_attrs.contains "local_printer_names" then
    if local_names.contains name then .ok ["lpadmin", "-x", name]
    else .error .printerNotFoundError
  else .error .attributeError

/-! ## Local printer registry (lines 115-130) -/

/-- The loop body of get_local_printers for one lpstat output line:
the last whitespace-delimited token is the destination URL (IndexError on a
line with no tokens); lines whose URL does not start with the literal
smb://IP/ are skipped; for kept lines the remote name is the final
slash-separated segment of the URL and the install name is the token at
position 2 cut at its first colon (IndexError when there is no such token).
A split of any string is non-empty, so the trailing getLastD and headD
defaults are unreachable. -/
def parse_local_line (ip : String) (l : String) :
    Except PyExc (Option (String × String)) :=
  match (pySplitWs l).getLast? with
  | none => .error .indexError
  | some url =>
    if pyStartsWith url ("smb://" ++ ip ++ "/") = false then .ok none
    else
      match (pySplitWs l).get? 2 with
      | none => .error .indexError
      | some t2 =>
        .ok (some ((pySplitChar '/' url).getLastD "",
          (pySplitChar ':' t2).headD ""))

/-- Processing of all lines, in order; the first per-line failure propagates
before later lines are examined, as in the Python loop. -/
def parse_local_lines (ip : String) : List String →
    Except PyExc (List (String × String))
  | [] => .ok []
  | l :: rest =>
    match parse_local_line ip l with
    | .error e => .error e
    | .ok none => parse_local_lines ip rest
    | .ok (some pr) =>
      match parse_local_lines ip rest with
      | .error e => .error e
      | .ok others => .ok (pr :: others)

/-- AUPrint.get_local_printers: the lpstat invocation either yields output or
raises CalledProcessError; only CalledProcessError is caught and turned into
the empty list; the output is stripped and split into lines; any per-line
IndexError propagates. -/
def get_local_printers (ip : String) (r : Except CalledProcessError String) :
    Except PyExc (List (String × String)) :=
  match r with
  | .error _ => .ok []
  | .ok raw => parse_local_lines ip (pySplitChar '\n' (pyStrip raw))

/-- The host segment of a URL as the specification wording has it: the text
between the scheme marker and the following slash.  Scans for the leftmost
scheme marker. -/
def afterSchemeMarker : List Char → Option (List Char)
  | ':' :: '/' :: '/' :: rest => some rest
  | _ :: rest => afterSchemeMarker rest
  | [] => none

/-- The host segment of a URL (empty when there is no scheme marker). -/
def hostSegment (url : String) : String :=
  match afterSchemeMarker url.data with
  | some rest => String.mk (rest.takeWhile (fun c => c ≠ '/'))
  | none => ""

/-! ## Config (lines 12-35), over configparser with BasicInterpolation

configparser.ConfigParser() applies BasicInterpolation: set validates the
interpolation syntax of a non-empty value, and get expands percent escapes
and references of shape percent, open paren, name, close paren, letter s.
Both set and get lowercase the option name (optionxform). -/

/-- Scanner state shared by the interpolation reader and the reference
remover: normal text, just after an unescaped percent, inside the
parenthesised name, or just after its closing paren. -/
inductive ScanMode where
  | normal
  | sawPercent
  | inName (acc : List Char)
  | afterName (acc : List Char)
deriving DecidableEq, Repr

/-- The substitution the before_set validity check performs: remove every
occurrence of the reference pattern, exactly as re.sub with the keycre
pattern does (leftmost match, skip past a match, advance one character past a
failed attempt; the emitted text of failed attempts contains no match start
the original scan would not also have visited). -/
def keycreSubScan : ScanMode → List Char → List Char
  | .normal, [] => []
  | .normal, c :: rest =>
    if c = '%' then keycreSubScan .sawPercent rest
    else c :: keycreSubScan .normal rest
  | .sawPercent, [] => ['%']
  | .sawPercent, c :: rest =>
    if c = '(' then keycreSubScan (.inName []) rest
    else if c = '%' then '%' :: keycreSubScan .sawPercent rest
    else '%' :: c :: keycreSubScan .normal rest
  | .inName acc, [] => '%' :: '(' :: acc
  | .inName acc, c :: rest =>
    if c = ')' then
      if acc.isEmpty then '%' :: '(' :: ')' :: keycreSubScan .normal rest
      else keycreSubScan (.afterName acc) rest
    else keycreSubScan (.inName (acc ++ [c])) rest
  | .afterName acc, [] => '%' :: '(' :: (acc ++ [')'])
  | .afterName acc, c :: rest =>
    if c = 's' then keycreSubScan .normal rest
    else if c = '%' then
      ('%' :: '(' :: (acc ++ [')'])) ++ keycreSubScan .sawPercent rest
    else ('%' :: '(' :: (acc ++ [')', c])) ++ keycreSubScan .normal rest

/-- Python str.replace for the two-character pattern of two percents,
replaced by nothing (the escaped-percent removal of before_set): scan left to
right, skipping past each non-overlapping match. -/
def replaceDoublePercent : List Char → List Char
  | [] => []
  | [c] => [c]
  | c :: c2 :: rest =>
    if c = '%' ∧ c2 = '%' then replaceDoublePercent rest
    else c :: replaceDoublePercent (c2 :: rest)

/-- BasicInterpolation.before_set: the value is valid when, after removing
escaped percents and whole references, no percent remains. -/
def before_set_ok (v : List Char) : Bool :=
  !(keycreSubScan .normal (replaceDoublePercent v)).contains '%'

/-- One interpolation level of BasicInterpolation before_get: literal text
passes through; a doubled percent yields one percent; a reference looks the
lowercased name up among the stored options (missing name is an error) and,
when the stored value itself contains a percent, runs the nested interpreter
on it (no nested interpreter left means the depth cap is hit); any other use
of percent is a syntax error.  Structural recursion on the scanned text. -/
def interpLevel (opts : List (String × String))
    (nested : Option (List Char → Except PyExc (List Char))) :
    ScanMode → List Char → Except PyExc (List Char)
  | .normal, [] => .ok []
  | .normal, c :: rest =>
    if c = '%' then interpLevel opts nested .sawPercent rest
    else
      match interpLevel opts nested .normal rest with
      | .error e => .error e
      | .ok t => .ok (c :: t)
  | .sawPercent, [] => .error .interpolationSyntaxError
  | .sawPercent, c :: rest =>
    if c = '%' then
      match interpLevel opts nested .normal rest with
      | .error e => .error e
      | .ok t => .ok ('%' :: t)
    else if c = '(' then interpLevel opts nested (.inName []) rest
    else .error .interpolationSyntaxError
  | .inName _, [] => .error .interpolationSyntaxError
  | .inName acc, c :: rest =>
    if c = ')' then
      if acc.isEmpty then .error .interpolationSyntaxError
      else interpLevel opts nested (.afterName acc) rest
    else interpLevel opts nested (.inName (acc ++ [c])) rest
  | .afterName _, [] => .error .interpolationSyntaxError
  | .afterName acc, c :: rest =>
    if c = 's' then
      match opts.lookup (String.mk (acc.map Char.toLower)) with
      | none => .error .interpolationMissingOptionError
      | some v =>
        if v.data.contains '%' then
          match nested with
          | none => .error .interpolationDepthError
          | some f =>
            match f v.data with
            | .error e => .error e
            | .ok inner =>
              match interpLevel opts nested .normal rest with
              | .error e => .error e
              | .ok t => .ok (inner ++ t)
        else
          match interpLevel opts nested .normal rest with
          | .error e => .error e
          | .ok t => .ok (v.data ++ t)
    else .error .interpolationSyntaxError

/-- Interpolation with a given number of further nesting levels available.
Python permits nesting depths one to MAX_INTERPOLATION_DEPTH = 10, checked at
entry of each level; the top level therefore starts with nine further levels
available. -/
def interpAtDepth (opts : List (String × String)) :
    Nat → List Char → Except PyExc (List Char)
  | 0 => fun l => interpLevel opts none .normal l
  | b + 1 => fun l =>
    interpLevel opts (some (fun v => interpAtDepth opts b v)) .normal l

/-- BasicInterpolation.before_get on a stored value. -/
def before_get (opts : List (String × String)) (v : String) :
    Except PyExc String :=
  match interpAtDepth opts 9 v.data with
  | .error e => .error e
  | .ok l => .ok (String.mk l)

/-- The observable state of a Config object: the options of the default
section, and the snapshot the backing file holds (none before any write in
this process; the initial read is modelled by the starting state). -/
structure ConfigState where
  options : List (String × String)
  file : Option (List (String × String))
deriving DecidableEq, Repr

/-- ConfigParser.set on the default section: a non-empty value must pass the
before_set syntax check (ValueError otherwise, and nothing is stored); the
raw value is stored under the lowercased key. -/
def cp_set (opts : List (String × String)) (key value : String) :
    Except PyExc (List (String × String)) :=
  if value.data.isEmpty then .ok (insertDict opts (lowerStr key) value)
  else if before_set_ok value.data then
    .ok (insertDict opts (lowerStr key) value)
  else .error .valueError

/-- Config.__setattr__ (lines 18-29): keys starting with an underscore go to
the plain attribute path and leave the store untouched; storing none removes
the option; otherwise the value is set; every successful mutation rewrites
the whole backing file.  A ValueError from the syntax check propagates before
the file is written. -/
def config_setattr (s : ConfigState) (key : String) (v : Option String) :
    Except PyExc ConfigState :=
  if pyStartsWith key "_" then .ok s
  else
    match v with
    | none =>
      let opts := eraseKey s.options (lowerStr key)
      .ok ⟨opts, some opts⟩
    | some value =>
      match cp_set s.options key value with
      | .error e => .error e
      | .ok opts => .ok ⟨opts, some opts⟩

/-- Config.__getattribute__ (lines 31-35): keys starting with an underscore
read the plain attribute (outside the store model); otherwise the lowercased
key is looked up with fallback none, and a found value passes through
interpolation. -/
def config_getattr (s : ConfigState) (key : String) :
    Except PyExc (Option String) :=
  if pyStartsWith key "_" then .ok none
  else
    match s.options.lookup (lowerStr key) with
    | none => .ok none
    | some v =>
      match before_get s.options v with
      | .error e => .error e
      | .ok w => .ok (some w)

/-! ## Helper lemmas -/

theorem lookup_insertDict (d : List (String × String)) (k v : String) :
    (insertDict d k v).lookup k = some v := by
  induction d with
  | nil => simp [insertDict, List.lookup]
  | cons p rest ih =>
    obtain ⟨k0, v0⟩ := p
    by_cases h : k0 = k
    · simp [insertDict, h, List.lookup]
    · simp only [insertDict, if_neg h, List.lookup]
      have : (k == k0) = false := by
        simp [beq_iff_eq]
        exact fun hk => h hk.symm
      simp [this, ih]

theorem lookup_eraseKey (d : List (String × String)) (k : String) :
    (eraseKey d k).lookup k = none := by
  unfold eraseKey
  induction d with
  | nil => rfl
  | cons p rest ih =>
    obtain ⟨k0, v0⟩ := p
    by_cases h : k0 = k
    · have hb : ((k0, v0).1 != k) = false := by simp [h]
      rw [List.filter_cons, hb]
      simpa using ih
    · have hb : ((k0, v0).1 != k) = true := by simp [bne_iff_ne]; exact h
      have hk : (k == k0) = false := by
        simp only [beq_eq_false_iff_ne, ne_eq]
        exact fun hkk => h hkk.symm
      rw [List.filter_cons, hb]
      simp only [if_true]
      simp only [List.lookup, hk]
      exact ih

theorem splitCharList_ne_nil (sep : Char) (s : List Char) :
    splitCharList sep s ≠ [] := by
  induction s with
  | nil => simp [splitCharList]
  | cons c cs ih =>
    by_cases h : c = sep
    · simp [splitCharList, h]
    · simp only [splitCharList, if_neg h]
      cases hs : splitCharList sep cs with
      | nil => exact absurd hs ih
      | cons a t => simp

theorem splitCharList_length (sep : Char) (s : List Char) :
    (splitCharList sep s).length = s.count sep + 1 := by
  induction s with
  | nil => simp [splitCharList]
  | cons c cs ih =>
    by_cases h : c = sep
    · simp [splitCharList, h, List.count_cons, ih]
    · have hb : (c == sep) = false := by simp [beq_iff_eq]; exact h
      simp only [splitCharList, if_neg h, List.count_cons, hb]
      cases hs : splitCharList sep cs with
      | nil => exact absurd hs (splitCharList_ne_nil sep cs)
      | cons a t =>
        rw [hs] at ih
        simpa using ih

theorem interpLevel_noPercent (opts : List (String × String))
    (nested : Option (List Char → Except PyExc (List Char)))
    (l : List Char) (h : '%' ∉ l) :
    interpLevel opts nested .normal l = .ok l := by
  induction l with
  | nil => rfl
  | cons c cs ih =>
    have hc : ¬ (c = '%') := fun hcc => h (hcc ▸ List.mem_cons_self c cs)
    have hcs : '%' ∉ cs := fun hm => h (List.mem_cons_of_mem c hm)
    simp only [interpLevel, if_neg hc]
    rw [ih hcs]

theorem replaceDoublePercent_noPercent (l : List Char) (h : '%' ∉ l) :
    replaceDoublePercent l = l := by
  induction l with
  | nil => rfl
  | cons c cs ih =>
    have hc : ¬ (c = '%') := fun hcc => h (hcc ▸ List.mem_cons_self c cs)
    have hcs : '%' ∉ cs := fun hm => h (List.mem_cons_of_mem c hm)
    cases cs with
    | nil => rfl
    | cons c2 rest =>
      have hcond : ¬ (c = '%' ∧ c2 = '%') := fun hp => hc hp.1
      simp only [replaceDoublePercent, if_neg hcond]
      rw [ih hcs]

theorem keycreSubScan_noPercent (l : List Char) (h : '%' ∉ l) :
    keycreSubScan .normal l = l := by
  induction l with
  | nil => rfl
  | cons c cs ih =>
    have hc : ¬ (c = '%') := fun hcc => h (hcc ▸ List.mem_cons_self c cs)
    have hcs : '%' ∉ cs := fun hm => h (List.mem_cons_of_mem c hm)
    simp only [keycreSubScan, if_neg hc]
    rw [ih hcs]

theorem contains_eq_false_of_not_mem (l : List Char) (h : '%' ∉ l) :
    l.contains '%' = false := by
  cases hc : l.contains '%' with
  | false => rfl
  | true =>
    exact absurd (List.elem_iff.mp hc) h

theorem before_set_ok_noPercent (v : List Char) (h : '%' ∉ v) :
    before_set_ok v = true := by
  unfold before_set_ok
  rw [replaceDoublePercent_noPercent v h, keycreSubScan_noPercent v h,
    contains_eq_false_of_not_mem v h]
  rfl

theorem processLine_spec (d : List (String × String)) (l : String) :
    processLine d l =
      match remoteRecordSpec l with
      | some r => insertDict d r.1 r.2
      | none => d := by
  unfold processLine remoteRecordSpec
  cases h : pyStartsWith l "\t" with
  | false => simp [h]
  | true =>
    simp only [h]
    cases hp : pySplitWsMax 2 (pyStrip l) with
    | nil => simp
    | cons a t =>
      cases t with
      | nil => simp
      | cons b t2 =>
        cases t2 with
        | nil => simp
        | cons c t3 =>
          cases t3 with
          | nil =>
            by_cases hb : b = "Printer"
            · simp [hb]
            · simp [hb]
          | cons e t4 => simp

theorem foldl_processLine_spec (ls : List String)
    (d : List (String × String)) :
    ls.foldl processLine d =
      ls.foldl
        (fun d l =>
          match remoteRecordSpec l with
          | some r => insertDict d r.1 r.2
          | none => d)
        d := by
  induction ls generalizing d with
  | nil => rfl
  | cons a t ih =>
    simp only [List.foldl]
    rw [processLine_spec]
    exact ih _

/-! ## Claim theorems -/

/-- C1: install_printer raises PrinterNotFoundError exactly when the name is
not a key of the last-fetched remote directory mapping; when it is a key, no
PrinterNotFoundError is raised and the lpadmin install invocation is issued
with the fixed generic PDF driver profile, the enablement flag and the
constructed connection URL. -/
theorem install_printer_not_found_iff :
    ∀ (st : AUPrintState) (ip name install_name : String),
      (install_printer st ip name install_name =
          .error .printerNotFoundError ↔ dictMem name st.printers = false) ∧
      (dictMem name st.printers = true →
        install_printer st ip name install_name =
          .ok ["lpadmin", "-p", install_name, "-E", "-P", PPD, "-v",
            printer_url st.auid st.password ip name]) := by
  intro st ip name install_name
  unfold install_printer
  cases h : dictMem name st.printers with
  | false => simp [h]
  | true => simp [h]

theorem install_printer_not_found_iff_witness :
    install_printer ⟨"au1", "pw", [("prn", "desc")]⟩ "10.0.0.1" "prn"
        "myprn" =
      .ok ["lpadmin", "-p", "myprn", "-E", "-P", PPD, "-v",
        printer_url "au1" "pw" "10.0.0.1" "prn"] :=
  (install_printer_not_found_iff ⟨"au1", "pw", [("prn", "desc")]⟩ "10.0.0.1"
    "prn" "myprn").2 (by decide)

/-- C2: the claim says delete_printer raises PrinterNotFoundError when the
name is not a currently-bound local install name and otherwise issues the
lpadmin delete invocation; in the code the guard calls
self.local_printer_names(), an attribute AUPrint never defines, so every
call raises AttributeError instead, whatever the name and whatever the local
bindings. -/
theorem delete_printer_attribute_error :
    AUPrint_attrs.contains "local_printer_names" = false ∧
    ∀ (local_names : List String) (name : String),
      delete_printer local_names name = .error .attributeError := by
  exact ⟨rfl, fun local_names name => rfl⟩

/-- C3: get_remote_printer_list records exactly the lines the specification
describes (leading tab, exactly three whitespace-delimited fields with the
description keeping embedded spaces, type field equal to the literal
Printer, name mapped to description, all other lines skipped), and the
example line yields the singleton mapping. -/
theorem remote_printer_list_spec :
    (∀ out : String, get_remote_printer_list out = remoteListSpec out) ∧
    get_remote_printer_list "\tprn1\tPrinter\tDescription text" =
      [("prn1", "Description text")] := by
  constructor
  · intro out
    unfold get_remote_printer_list remoteListSpec
    exact foldl_processLine_spec _ _
  · decide

/-- C5 (amended): get_local_printers returns the empty list when the lpstat
invocation itself fails with CalledProcessError; per-line parsing failures
are not caught (see the counterexample theorem). -/
theorem local_printers_swallow_cpe :
    ∀ (ip : String) (e : CalledProcessError),
      get_local_printers ip (.error e) = .ok [] := by
  intro ip e
  rfl

/-- C5 counterexample: an lpstat run that exits zero with empty output makes
get_local_printers raise IndexError (the blank line has no tokens), so not
every failure is swallowed into an empty result. -/
theorem local_printers_parse_error_surfaces :
    get_local_printers "10.0.0.1" (.ok "") = .error .indexError ∧
    get_local_printers "10.0.0.1" (.ok "") ≠ .ok ([] : List (String × String)) := by
  refine ⟨rfl, fun h => Except.noConfusion h⟩

/-- C6 (amended): a line is kept exactly when its final whitespace-delimited
token starts with the literal smb:// followed by the resolved address and a
slash (so a matching host under another scheme, or without a path slash, is
excluded); for kept lines the remote name is the final slash-separated
segment of the URL and the install name is the token at position 2 (the
third token, not the second) cut at its first colon. -/
theorem local_line_filter_extract :
    ∀ (ip l url : String), (pySplitWs l).getLast? = some url →
      (pyStartsWith url ("smb://" ++ ip ++ "/") = false →
        parse_local_line ip l = .ok none) ∧
      (∀ t2, pyStartsWith url ("smb://" ++ ip ++ "/") = true →
        (pySplitWs l).get? 2 = some t2 →
        parse_local_line ip l =
          .ok (some ((pySplitChar '/' url).getLastD "",
            (pySplitChar ':' t2).headD ""))) := by
  intro ip l url hurl
  constructor
  · intro hno
    simp only [parse_local_line, hurl, hno]
    simp
  · intro t2 hyes ht2
    simp only [parse_local_line, hurl, hyes, ht2]
    simp

theorem local_line_filter_extract_witness :
    parse_local_line "10.0.0.1" "b smb://other/x" = .ok none ∧
    parse_local_line "10.0.0.1" "device for x: smb://10.0.0.1/prn" =
      .ok (some ((pySplitChar '/' "smb://10.0.0.1/prn").getLastD "",
        (pySplitChar ':' "x:").headD "")) :=
  ⟨(local_line_filter_extract "10.0.0.1" "b smb://other/x" "smb://other/x"
      (by decide)).1 (by decide),
   (local_line_filter_extract "10.0.0.1" "device for x: smb://10.0.0.1/prn"
      "smb://10.0.0.1/prn" (by decide)).2 "x:" (by decide) (by decide)⟩

/-- C6 counterexample: on the lpstat-shaped line the code extracts the
install name from the third whitespace-delimited token, not the second as
the claim states; and a final token whose host segment equals the resolved
address is nevertheless excluded when it lacks the smb scheme path slash. -/
theorem local_line_second_token_counterexample :
    parse_local_line "10.0.0.1" "device for myprinter: smb://10.0.0.1/prn" =
      .ok (some ("prn", "myprinter")) ∧
    (pySplitWs "device for myprinter: smb://10.0.0.1/prn").get? 1 =
      some "for" ∧
    (pySplitChar ':' "for").headD "" = "for" ∧
    ("myprinter" : String) ≠ "for" ∧
    hostSegment "smb://10.0.0.1" = "10.0.0.1" ∧
    parse_local_line "10.0.0.1" "x smb://10.0.0.1" = .ok none := by
  refine ⟨rfl, by decide, by decide, by decide, by decide, rfl⟩

/-- C7: constructing the session raises AUAuthenticationError exactly when
the smbclient listing command exits non-zero (every CalledProcessError is so
converted), and on success the session holds the credentials and the parsed
name-to-description mapping. -/
theorem auprint_init_auth_error_iff :
    ∀ (auid password : String) (r : Except CalledProcessError String),
      (AUPrint_init auid password r = .error .auAuthenticationError ↔
        ∃ e, r = .error e) ∧
      (∀ out, r = .ok out →
        AUPrint_init auid password r =
          .ok ⟨auid, password, get_remote_printer_list out⟩) := by
  intro a p r
  cases r with
  | error e =>
    refine ⟨⟨fun _ => ⟨e, rfl⟩, fun _ => rfl⟩, fun out hout => ?_⟩
    exact absurd hout (by simp)
  | ok out =>
    refine ⟨⟨fun h => ?_, fun h => ?_⟩, fun out2 hout => ?_⟩
    · exact absurd h (by simp [AUPrint_init, get_remote_printer_list_run])
    · obtain ⟨e, he⟩ := h
      exact absurd he (by simp)
    · injection hout with h2
      rw [← h2]
      rfl

theorem auprint_init_auth_error_iff_witness :
    AUPrint_init "au1" "pw" (.ok "") =
      .ok ⟨"au1", "pw", get_remote_printer_list ""⟩ ∧
    AUPrint_init "au1" "pw" (.error ⟨1⟩) = .error .auAuthenticationError :=
  ⟨(auprint_init_auth_error_iff "au1" "pw" (.ok "")).2 "" rfl,
   (auprint_init_auth_error_iff "au1" "pw" (.error ⟨1⟩)).1.mpr ⟨⟨1⟩, rfl⟩⟩

set_option maxRecDepth 20000 in
/-- C8: printer_url is exactly the smb URL built from the domain, the auid,
the percent-encoded password, the resolved address and the name; the safe
set of the percent encoding coincides with the unreserved characters (so
every other byte, the slash included, is escaped with uppercase hex). -/
theorem printer_url_spec :
    (∀ auid password ip name : String,
      printer_url auid password ip name =
        "smb://" ++ DOMAIN ++ "\\" ++ auid ++ ":" ++ pyQuote password ++ "@"
          ++ ip ++ "/" ++ name) ∧
    (∀ b : Fin 256, alwaysSafeByte b.val = unreservedSpec b.val) ∧
    (∀ b : Fin 256,
      quoteByte b.val =
        if unreservedSpec b.val then [Char.ofNat b.val]
        else ['%', hexDigit (b.val / 16), hexDigit (b.val % 16)]) ∧
    pyQuote "/" = "%2F" := by
  refine ⟨fun a p i n => rfl, by decide, by decide, by decide⟩

/-- C9: the building table is a bijection between codes and names (each
round trip through the two lookup tables is the identity on table entries),
and inputs absent from a table pass through the default lookup unchanged. -/
theorem building_table_bijection :
    (∀ p ∈ BUILDING_NAMES,
      dictGetD BUILDING_NUMBERS (dictGetD BUILDING_NAMES p.1 p.1)
        (dictGetD BUILDING_NAMES p.1 p.1) = p.1) ∧
    (∀ p ∈ BUILDING_NUMBERS,
      dictGetD BUILDING_NAMES (dictGetD BUILDING_NUMBERS p.1 p.1)
        (dictGetD BUILDING_NUMBERS p.1 p.1) = p.1) ∧
    (∀ s : String, BUILDING_NAMES.lookup s = none →
      dictGetD BUILDING_NAMES s s = s) ∧
    (∀ s : String, BUILDING_NUMBERS.lookup s = none →
      dictGetD BUILDING_NUMBERS s s = s) := by
  refine ⟨by decide, by decide, fun s h => ?_, fun s h => ?_⟩
  · unfold dictGetD
    rw [h]
  · unfold dictGetD
    rw [h]

theorem building_table_bijection_witness :
    dictGetD BUILDING_NUMBERS (dictGetD BUILDING_NAMES "5341" "5341")
      (dictGetD BUILDING_NAMES "5341" "5341") = "5341" ∧
    dictGetD BUILDING_NAMES "zzz" "zzz" = "zzz" :=
  ⟨building_table_bijection.1 ("5341", "turing") (by decide),
   building_table_bijection.2.2.1 "zzz" (by decide)⟩

/-- C10: a printer name with two or more hyphens keeps only its first two
hyphen-separated parts, the first mapped through the building table, and
every remaining part is discarded; the example evaluates as claimed; a name
with no hyphen is returned unchanged. -/
theorem pretty_name_truncates :
    ∀ name : String,
      (name.data.count '-' = 0 → pretty_name name = name) ∧
      (2 ≤ name.data.count '-' →
        pretty_name name =
          dictGetD BUILDING_NAMES ((pySplitChar '-' name).headD "")
            ((pySplitChar '-' name).headD "")
            ++ "-" ++ (pySplitChar '-' name).getD 1 "") ∧
      pretty_name "5341-12-extra" = "turing-12" := by
  intro name
  have hlen : (pySplitChar '-' name).length = name.data.count '-' + 1 := by
    unfold pySplitChar
    rw [List.length_map]
    exact splitCharList_length '-' name.data
  refine ⟨?_, ?_, by decide⟩
  · intro h0
    have h1 : (pySplitChar '-' name).length = 1 := by omega
    obtain ⟨x, hx⟩ := List.length_eq_one.mp h1
    unfold pretty_name
    rw [hx]
  · intro h2
    have h3 : 3 ≤ (pySplitChar '-' name).length := by omega
    cases hp : pySplitChar '-' name with
    | nil => rw [hp] at h3; simp at h3
    | cons a t =>
      cases t with
      | nil => rw [hp] at h3; simp at h3
      | cons b t2 =>
        unfold pretty_name
        rw [hp]
        simp

theorem interpAtDepth_noPercent (opts : List (String × String)) (d : Nat)
    (v : List Char) (hv : '%' ∉ v) : interpAtDepth opts d v = .ok v := by
  cases d with
  | zero => exact interpLevel_noPercent opts none v hv
  | succ b =>
    exact interpLevel_noPercent opts (some fun l => interpAtDepth opts b l) v
      hv

theorem before_get_noPercent (opts : List (String × String)) (v : String)
    (hv : '%' ∉ v.data) : before_get opts v = .ok v := by
  unfold before_get
  rw [interpAtDepth_noPercent opts 9 v.data hv]

/-- C4 (amended): for every value containing no percent character, setting a
non-underscore key on the store and reading the same key back returns
exactly the value; setting the key to none removes it, so a subsequent read
returns the absent sentinel without raising; and every successful mutation
immediately rewrites the backing file with the full option state.  (Values
containing percent characters pass through configparser interpolation on
read; see the counterexample theorem.) -/
theorem config_roundtrip_percent_free :
    ∀ (s : ConfigState) (key v : String),
      pyStartsWith key "_" = false → '%' ∉ v.data →
      ∃ s1 s2 : ConfigState,
        config_setattr s key (some v) = .ok s1 ∧
        config_getattr s1 key = .ok (some v) ∧
        s1.file = some s1.options ∧
        config_setattr s1 key none = .ok s2 ∧
        config_getattr s2 key = .ok none ∧
        s2.file = some s2.options := by
  intro s key v hkey hv
  have hnk : ¬ (pyStartsWith key "_" = true) := by simp [hkey]
  have hset : cp_set s.options key v =
      .ok (insertDict s.options (lowerStr key) v) := by
    unfold cp_set
    by_cases he : v.data.isEmpty = true
    · rw [if_pos he]
    · rw [if_neg he, if_pos (before_set_ok_noPercent v.data hv)]
  refine ⟨⟨insertDict s.options (lowerStr key) v,
      some (insertDict s.options (lowerStr key) v)⟩,
    ⟨eraseKey (insertDict s.options (lowerStr key) v) (lowerStr key),
      some (eraseKey (insertDict s.options (lowerStr key) v) (lowerStr key))⟩,
    ?_, ?_, rfl, ?_, ?_, rfl⟩
  · unfold config_setattr
    rw [if_neg hnk]
    simp only [hset]
  · unfold config_getattr
    rw [if_neg hnk]
    simp only [lookup_insertDict]
    rw [before_get_noPercent _ v hv]
  · unfold config_setattr
    rw [if_neg hnk]
  · unfold config_getattr
    rw [if_neg hnk]
    simp only [lookup_eraseKey]

theorem config_roundtrip_percent_free_witness :
    ∃ s1 s2 : ConfigState,
      config_setattr ⟨[], none⟩ "auid" (some "au123") = .ok s1 ∧
      config_getattr s1 "auid" = .ok (some "au123") ∧
      s1.file = some s1.options ∧
      config_setattr s1 "auid" none = .ok s2 ∧
      config_getattr s2 "auid" = .ok none ∧
      s2.file = some s2.options :=
  config_roundtrip_percent_free ⟨[], none⟩ "auid" "au123" (by decide)
    (by decide)

/-- C4 counterexample: storing the two-character value of two percent signs
succeeds, but reading the key back yields the single percent sign produced
by configparser interpolation, not the stored value, so the round trip is
not exact for every string value. -/
theorem config_roundtrip_counterexample :
    config_setattr ⟨[], none⟩ "password" (some "%%") =
      .ok ⟨[("password", "%%")], some [("password", "%%")]⟩ ∧
    config_getattr ⟨[("password", "%%")], some [("password", "%%")]⟩
      "password" = .ok (some "%") ∧
    ("%" : String) ≠ "%%" := by
  refine ⟨rfl, rfl, by decide⟩

theorem pretty_name_truncates_witness :
    pretty_name "plain" = "plain" ∧
    pretty_name "a-b-c" =
      dictGetD BUILDING_NAMES ((pySplitChar '-' "a-b-c").headD "")
        ((pySplitChar '-' "a-b-c").headD "")
        ++ "-" ++ (pySplitChar '-' "a-b-c").getD 1 "" :=
  ⟨(pretty_name_truncates "plain").1 (by decide),
   (pretty_name_truncates "a-b-c").2.1 (by decide)⟩
